import Mathlib

/-!
# Verification of the smooth-control host driver

A shallow embedding, in Lean 4, of the host-side USB motor-controller driver
(`parseData.ts`, the `USBInterface` session module, and the
`ConnectedMotorManager` registry), together with theorems settling the frozen
claims about its natural-language specification.

Conventions of the embedding:
* a Node `Buffer` is a `List Nat` of byte values;
* JavaScript numbers carried by commands are `ℚ` (so that `Math.round`
  behaviour on non-integers is expressible); values read from wire buffers
  are `Nat`/`Int`;
* fields of a JavaScript object that may be absent (`undefined`) are
  `Option`-valued;
* a thrown exception is an explicit error value in the result.
-/

namespace SmoothControl

/-! ## Byte-level primitives shared by decode and encode -/

/-- The byte of `data` at index `i` (0 outside the list; callers
bounds-check first). -/
def byteAt (data : List Nat) (i : Nat) : Nat := data.getD i 0

/-- Little-endian unsigned read of `len` bytes starting at `pos`
(out-of-range positions read as 0; callers bounds-check first, mirroring
Node `Buffer.readUIntLE`). -/
def uintLE (data : List Nat) (pos : Nat) : Nat → Nat
  | 0 => 0
  | len + 1 => byteAt data pos + 256 * uintLE data (pos + 1) len

/-- Little-endian signed (two's complement) read of `len` bytes, mirroring
Node `Buffer.readIntLE`. -/
def intLE (data : List Nat) (pos len : Nat) : Int :=
  let u := uintLE data pos len
  if u < 2 ^ (8 * len - 1) then (u : Int) else (u : Int) - 2 ^ (8 * len)

/-- Little-endian byte representation (length `len`) of the two's-complement
residue of `v`.  This is what Node `Buffer.writeUIntLE`/`writeIntLE` place in
the buffer once their range check has passed. -/
def intLEBytes (v : Int) : Nat → List Nat
  | 0 => []
  | len + 1 => (v.emod 256).toNat :: intLEBytes (v.fdiv 256) len

/-- Overlay `len` bytes (the LE encoding of `v`) onto `buffer` at `pos`.
Callers bounds-check `pos + len ≤ buffer.length` first. -/
def setBytesLE (buffer : List Nat) (pos : Nat) (v : Int) (len : Nat) : List Nat :=
  buffer.take pos ++ intLEBytes v len ++ buffer.drop (pos + len)

/-- `src.copy(dst, pos)` of Node: copy `min src.length (dst.length - pos)`
bytes of `src` into `dst` starting at `pos`. -/
def copyInto (dst : List Nat) (pos : Nat) (src : List Nat) : List Nat :=
  dst.take pos ++ src.take (dst.length - pos) ++
    dst.drop (pos + min src.length (dst.length - pos))

/-- `Math.round` of JavaScript: round half-up towards `+∞`. -/
def jsRound (q : ℚ) : Int := ⌊q + 1 / 2⌋

/-- JavaScript truncation towards zero (the first step of `ToInt32`). -/
def jsTrunc (q : ℚ) : Int := if 0 ≤ q then ⌊q⌋ else ⌈q⌉

/-- `x & 0xffff` of JavaScript applied to a (finite) number `q`:
`ToInt32` then keep the low 16 bits, which is `trunc q mod 2^16`. -/
def jsAnd0xffff (q : ℚ) : Int := (jsTrunc q).emod 65536

/-- `utils/clipRange.ts`: build a clipping function; arguments are swapped
when given in the wrong order (default `min = 0`). -/
def clipRange (max : ℚ) (min : ℚ := 0) : ℚ → ℚ := fun value =>
  let p : ℚ × ℚ := if max < min then (min, max) else (max, min)
  if value > p.1 then p.1
  else if value < p.2 then p.2
  else value

/-! ## Decoded inbound reports (`parseData.ts`) -/

/-- `parseData.ts`: `export const reportLength = 33` (must match the
firmware's `REPORT_SIZE`). -/
def reportLength : Nat := 33

/-- Result of `parseMLX`: either a parsed message of the external `mlx90363`
parser (abstract type `α`) or the diagnostic string of a caught exception. -/
inductive MlxParsed (α : Type) where
  | messages (m : α)
  | diagnostic (s : String)
deriving DecidableEq

/-- `parseMLX` of `parseData.ts`: run the external parser, catching any
thrown error as its string rendering.  The external `parseData` of
`mlx90363` is not part of this repository, so it is a parameter: a function
that either returns a message or throws (`Except.error` = throw). -/
def parseMLX {α : Type} (ext : List Nat → Except String α) (mlxResponse : List Nat) :
    MlxParsed α :=
  match ext mlxResponse with
  | .ok m => .messages m
  | .error e => .diagnostic e

/-- The JavaScript object populated by `parseHostDataIN`.  Every field is
optional because the source freely attaches fields to a plain object; a
fresh `{}` has every field absent. -/
structure ReadDataObj (α : Type) where
  state : Option Nat := none
  fault : Option Nat := none
  position : Option Nat := none
  velocity : Option Int := none
  amplitude : Option Int := none
  mlxDataValid : Option Bool := none
  mlxResponse : Option (List Nat) := none
  mlxResponseState : Option Nat := none
  mlxParsedResponse : Option (MlxParsed α) := none
  calibrated : Option Bool := none
  controlLoops : Option Nat := none
  mlxCRCFailures : Option Nat := none
  extra4 : Option Int := none
  extra2 : Option Int := none
  extra1 : Option Int := none
  cpuTemp : Option Nat := none
  current : Option Int := none
  VDD : Option Nat := none
  vBatt : Option Nat := none
  AS : Option Nat := none
  BS : Option Nat := none
  CS : Option Nat := none
deriving DecidableEq

/-- The fresh `{}` object used when no reuse object is supplied. -/
def emptyReadData (α : Type) : ReadDataObj α := {}

/-- Errors thrown by `parseHostDataIN`:
`invalidData` is the length-check `Error('Invalid data. Refusing to parse')`
with the offending buffer attached as `e.data`; `readOutOfRange` stands for
the bounds/width assertion of a Node `Buffer` read. -/
inductive ParseError where
  | invalidData (data : List Nat)
  | readOutOfRange
deriving DecidableEq

/-- `read(length, signed = false)` of `parseHostDataIN`, unsigned flavour,
at explicit cursor position `pos` (the source advances a mutable
`readPosition`; every call site below is annotated with the cursor value it
corresponds to).  Node `readUIntLE` asserts `1 ≤ len ≤ 6` and
`pos + len ≤ data.length` and throws otherwise. -/
def rdU (data : List Nat) (pos len : Nat) : Except ParseError Nat :=
  if pos + len ≤ data.length ∧ 1 ≤ len ∧ len ≤ 6 then .ok (uintLE data pos len)
  else .error .readOutOfRange

/-- `read(length, true)` of `parseHostDataIN` (signed), same assertions as
`rdU`. -/
def rdI (data : List Nat) (pos len : Nat) : Except ParseError Int :=
  if pos + len ≤ data.length ∧ 1 ≤ len ∧ len ≤ 6 then .ok (intLE data pos len)
  else .error .readOutOfRange

/-- Tail of `parseHostDataIN`: `readPosition = 1 + Math.max(1, 18, 11)`
(= 19) and the seven `CommonData` reads, identical for every state tag. -/
def readCommons {α : Type} (data : List Nat) (r : ReadDataObj α) :
    Except ParseError (ReadDataObj α) := do
  let cpuTemp ← rdU data 19 2
  let current ← rdI data 21 2
  let vdd ← rdU data 23 2
  let vBatt ← rdU data 25 2
  let as ← rdU data 27 2
  let bs ← rdU data 29 2
  let cs ← rdU data 31 2
  pure { r with cpuTemp := some cpuTemp, current := some current,
                VDD := some vdd, vBatt := some vBatt,
                AS := some as, BS := some bs, CS := some cs }

/-- Body of `parseHostDataIN` after the length guard: the state-tag read,
the `switch` on it, then the common suffix.  Cursor positions are written
out explicitly (the source threads a mutable `readPosition`, starting at 0;
because the guard has established `data.length = reportLength`, all reads
are in bounds and the `ParseError` paths of `rdU`/`rdI` are unreachable). -/
def parseBody {α : Type} (ext : List Nat → Except String α) (data : List Nat)
    (r0 : ReadDataObj α) : Except ParseError (ReadDataObj α) := do
  let st ← rdU data 0 1
  let r := { r0 with state := some st }
  -- the `switch (ret.state)` with its three literal cases and no default
  if st = 0 then do -- ControllerState.Fault
    let f ← rdU data 1 1
    readCommons data { r with fault := some f }
  else if st = 1 then do -- ControllerState.Manual
    let position ← rdU data 1 2
    let velocity ← rdI data 3 4
    -- `readPosition++` skips the sign byte (offset 7) known to be 0
    let amplitude ← rdU data 8 1
    let validByte ← rdU data 9 1
    let r := { r with position := some position, velocity := some velocity,
                      amplitude := some (amplitude : Int),
                      mlxDataValid := some (validByte ≠ 0) }
    if validByte ≠ 0 then
      -- readBuffer(8): copy 8 bytes at offsets 10..17
      let res := (data.drop 10).take 8
      let rs ← rdU data 18 1
      let r := { r with mlxResponseState := some rs }
      if 1 < rs then -- MlxResponseState.Ready = 1
        readCommons data
          { r with mlxResponse := some res,
                   mlxParsedResponse := some (parseMLX ext res) }
      else
        readCommons data r
    else
      readCommons data r
  else if st = 2 then do -- ControllerState.Normal
    let position ← rdU data 1 2
    let velocity ← rdI data 3 2
    let signFlag ← rdU data 5 1
    let magnitude ← rdU data 6 1
    let calByte ← rdU data 7 1
    let controlLoops ← rdU data 8 2
    let crcFailures ← rdU data 10 2
    let extra4 ← rdI data 12 4
    let extra2 ← rdI data 16 2
    let extra1 ← rdI data 18 1
    readCommons data
      { r with position := some position, velocity := some velocity,
               amplitude := some ((if signFlag ≠ 0 then 1 else -1) * (magnitude : Int)),
               calibrated := some (calByte ≠ 0),
               controlLoops := some controlLoops,
               mlxCRCFailures := some crcFailures,
               extra4 := some extra4, extra2 := some extra2,
               extra1 := some extra1 }
  else readCommons data r -- no default case in the switch

/-- `parseHostDataIN(data, ret = {})` of `parseData.ts`.  Returns the
populated object together with `none`, or — on failure — the untouched
input object together with the thrown error (the length guard throws
before any field of `ret` is written). -/
def parseHostDataIN {α : Type} (ext : List Nat → Except String α) (data : List Nat)
    (ret : ReadDataObj α) : ReadDataObj α × Option ParseError :=
  if data.length ≠ reportLength then (ret, some (.invalidData data))
  else
    match parseBody ext data ret with
    | .ok r => (r, none)
    | .error e => (ret, some e)

/-! ## Variant-population predicates (from the `isFaultState` /
`isManualState` / `isNormalState` guards and the variant field lists of
`parseData.ts`) -/

/-- The fields `FaultData` requires beyond `state`. -/
def faultPopulated {α : Type} (r : ReadDataObj α) : Bool :=
  r.fault.isSome

/-- The fields `ManualData` always requires beyond `state` (the
`GoodMlxResponse` fields are conditional on `mlxDataValid`). -/
def manualPopulated {α : Type} (r : ReadDataObj α) : Bool :=
  r.position.isSome && r.velocity.isSome && r.amplitude.isSome &&
    r.mlxDataValid.isSome

/-- The fields `NormalData` requires beyond `state`. -/
def normalPopulated {α : Type} (r : ReadDataObj α) : Bool :=
  r.position.isSome && r.velocity.isSome && r.amplitude.isSome &&
    r.calibrated.isSome && r.controlLoops.isSome && r.mlxCRCFailures.isSome &&
    r.extra4.isSome && r.extra2.isSome && r.extra1.isSome

/-- All seven `CommonData` fields are present. -/
def commonPopulated {α : Type} (r : ReadDataObj α) : Bool :=
  r.cpuTemp.isSome && r.current.isSome && r.VDD.isSome && r.vBatt.isSome &&
    r.AS.isSome && r.BS.isSome && r.CS.isSome

/-- Exactly one of the three variants is populated. -/
def exactlyOneVariant {α : Type} (r : ReadDataObj α) : Bool :=
  (faultPopulated r && !manualPopulated r && !normalPopulated r) ||
  (manualPopulated r && !faultPopulated r && !normalPopulated r) ||
  (normalPopulated r && !faultPopulated r && !manualPopulated r)

/-! ## Outbound commands and the session `write` path (`USBInterface`,
`src/unnamed/part_003`) -/

/-- `pwmMode` of a `ServoCommand` (`parseData.ts`). -/
inductive PwmMode where
  | pwm
  | position
  | velocity
  | spare
  | command
  | kP
  | kI
  | kD
  | amplitudeLimit
deriving DecidableEq

/-- The `PWMMode` lookup table inside the `Servo` case of `write` (the
`synchronousAmplitude`/`synchronousVelocity` entries of the table are not
reachable from the `pwmMode` union type and are omitted). -/
def pwmByte : PwmMode → Nat
  | .pwm => 1
  | .position => 2
  | .velocity => 3
  | .spare => 4
  | .command => 1
  | .kP => 11
  | .kI => 12
  | .kD => 13
  | .amplitudeLimit => 199

/-- The `Command` union of `parseData.ts`.  Numeric fields are
`Option ℚ`-valued: `none` models a field left `undefined` by the caller
(the TypeScript type requires them, but `write` defends against `undefined`
at run time and the claims quantify over commands with fields omitted). -/
inductive Command where
  | clearFault
  | mlxDebug (data : Option (List Nat)) (crc : Option Bool)
  | threePhase (A B C : Option ℚ)
  | calibration (angle amplitude : Option ℚ)
  | push (command : Option ℚ)
  | servo (command : Option ℚ) (pwmMode : Option PwmMode)
  | synchronousDrive (amplitude velocity : Option ℚ)
  | bootloader
deriving DecidableEq

/-- `CommandMode` enum value carried in `command.mode` (`parseData.ts`). -/
def modeByte : Command → Nat
  | .mlxDebug _ _ => 0
  | .threePhase _ _ _ => 1
  | .calibration _ _ => 2
  | .push _ => 3
  | .servo _ _ => 4
  | .clearFault => 5
  | .synchronousDrive _ _ => 6
  | .bootloader => 0xfe

/-- Errors thrown inside the `try` block of `write` (each is wrapped into
the rethrown `TypeError('Failure parsing command' + e)`):
`missingArgument f` is `Error('Argument `f` missing')`,
`incorrectLength f` is  `Error('Argument `f` has incorrect length')`, and
`rangeError` stands for the range/bounds assertion of a Node `Buffer` write
(also hit via `Math.round(undefined) = NaN`). -/
inductive EncErr where
  | missingArgument (field : String)
  | incorrectLength (field : String)
  | rangeError
deriving DecidableEq

/-- The mutable write-buffer state of the encode path: the session's
reusable `writeBuffer` (of `reportLength` bytes) and the cursor `pos`. -/
structure EncState where
  buffer : List Nat
  pos : Nat
deriving DecidableEq

/-- `writeNumberToBuffer(num, len = 1, signed = false)` of `write`:
`Math.round` the value, then a Node little-endian buffer write, which
asserts the rounded value is within the width's range and the write is in
bounds (and rejects `NaN`, which is what `Math.round(undefined)` gives, so
a `none` value is a range error).  On success the cursor advances. -/
def writeNumberToBuffer (s : EncState) (num : Option ℚ) (len : Nat := 1)
    (signed : Bool := false) : EncState × Option EncErr :=
  match num with
  | none => (s, some .rangeError)
  | some q =>
    let v := jsRound q
    if (if signed then -(2 ^ (8 * len - 1) : Int) ≤ v ∧ v < 2 ^ (8 * len - 1)
        else 0 ≤ v ∧ v < 2 ^ (8 * len)) ∧ s.pos + len ≤ s.buffer.length then
      (⟨setBytesLE s.buffer s.pos v len, s.pos + len⟩, none)
    else (s, some .rangeError)

/-- Sequence two steps of the encode path, stopping at the first thrown
error (which keeps whatever was already written to the buffer). -/
def andThen (r : EncState × Option EncErr)
    (f : EncState → EncState × Option EncErr) : EncState × Option EncErr :=
  match r with
  | (s, some e) => (s, some e)
  | (s, none) => f s

/-- The `try` block of `write`: the mode-tag write followed by the
`switch (command.mode)`.  `pos` starts at 1 because `writeBuffer[0]` holds
the interface number.  Returns the buffer state reached (partial on error)
and the thrown error, if any. -/
def writeCommandBytes (c : Command) (s0 : EncState) : EncState × Option EncErr :=
  andThen (writeNumberToBuffer s0 (some (modeByte c : ℚ))) fun s1 =>
    match c with
    | .clearFault => (s1, none)
    | .bootloader => (s1, none)
    | .mlxDebug data crc =>
      match data with
      | none => (s1, some (.missingArgument "data"))
      | some d =>
        if ¬(d.length = 7 ∨ d.length = 8) then (s1, some (.incorrectLength "data"))
        else
          -- command.data.copy(writeBuffer, pos); pos += 8
          let s2 : EncState := ⟨copyInto s1.buffer s1.pos d, s1.pos + 8⟩
          let generateCRC : Bool := crc = some true ∨ d.length = 7
          writeNumberToBuffer s2 (some (if generateCRC then 1 else 0))
    | .threePhase A B C =>
      if A = none then (s1, some (.missingArgument "A"))
      else if B = none then (s1, some (.missingArgument "B"))
      else if C = none then (s1, some (.missingArgument "C"))
      else
        andThen (writeNumberToBuffer s1 A 2) fun s2 =>
          andThen (writeNumberToBuffer s2 B 2) fun s3 =>
            writeNumberToBuffer s3 C 2
    | .calibration angle amplitude =>
      if angle = none then (s1, some (.missingArgument "angle"))
      else if amplitude = none then (s1, some (.missingArgument "amplitude"))
      else
        andThen (writeNumberToBuffer s1 angle 2) fun s2 =>
          writeNumberToBuffer s2 amplitude 1
    | .push command =>
      match command with
      | none => (s1, some (.missingArgument "command"))
      | some q => writeNumberToBuffer s1 (some q) 2 true
    | .servo command pwmMode =>
      match command with
      | none => (s1, some (.missingArgument "command"))
      | some q =>
        match pwmMode with
        | none => (s1, some (.missingArgument "pwmMode"))
        | some m =>
          andThen (writeNumberToBuffer s1 (some (pwmByte m : ℚ))) fun s2 =>
            -- the inner switch (command.pwmMode) mutating command.command
            let q' : ℚ := match m with
              | .kP | .kI | .kD => (jsAnd0xffff q : ℚ)
              | .pwm | .command => clipRange (-255) 255 q
              | .position | .velocity | .spare => q
              | .amplitudeLimit => 0 -- `default:` branch
            writeNumberToBuffer s2 (some q') 4 true
    | .synchronousDrive amplitude velocity =>
      -- no `undefined` guards in this case in the source
      andThen (writeNumberToBuffer s1 amplitude 1 true) fun s2 =>
        writeNumberToBuffer s2 velocity 4 true

/-- The session state relevant to `write`: whether a device is attached
(`device` non-`undefined`), the reusable `writeBuffer`, and whether a
previous write's `outTransferPromise` is still unresolved. -/
structure Session where
  device : Bool
  writeBuffer : List Nat
  inFlight : Bool
deriving DecidableEq

/-- Observable outcome of a `write` call:
`notAttached` — returned `false`;
`previousWriteNotComplete` — threw `Error('Previous write not complete')`;
`commandError e` — threw `TypeError('Failure parsing command' + e)`;
`submitted` — submitted the control transfer and returned the promise of
the new `outTransferPromise`. -/
inductive WriteOutcome where
  | notAttached
  | previousWriteNotComplete
  | commandError (e : EncErr)
  | submitted
deriving DecidableEq

/-- `write(command)` of `USBInterface`: the device guard, the
pending-write guard, the encode into `writeBuffer` (cursor starting at 1),
and — only when nothing threw — the creation of a fresh
`outTransferPromise` and the submission of the transfer. -/
def write (s : Session) (c : Command) : WriteOutcome × Session :=
  if ¬s.device then (.notAttached, s)
  else if s.inFlight then (.previousWriteNotComplete, s)
  else
    match writeCommandBytes c ⟨s.writeBuffer, 1⟩ with
    | (st, some e) => (.commandError e, { s with writeBuffer := st.buffer })
    | (st, none) => (.submitted, { s with writeBuffer := st.buffer, inFlight := true })

/-! ## The connection registry (`ConnectedMotorManager.ts`) and consumer
registration (`USBInterface` constructor) -/

/-- One entry of the process-wide `motors` table.  Devices and consumers
are abstract handles (`Nat` identifiers). -/
structure MotorRecord where
  serial : String
  device : Option Nat := none
  consumer : Option Nat := none
deriving DecidableEq

/-- Replace the first record satisfying `p` by its image under `f`
(JavaScript mutates the record returned by `motors.find` in place). -/
def updateFirst (p : MotorRecord → Bool) (f : MotorRecord → MotorRecord) :
    List MotorRecord → List MotorRecord
  | [] => []
  | m :: rest => if p m then f m :: rest else m :: updateFirst p f rest

/-- Consumer-registration block of the `USBInterface` constructor
(`const found = motors.find(...)` ...).  Returns the updated table and the
list of `onAttach` invocations it performed (consumer, device), or the
`Error("Can't have two consumers ...")`. -/
def registerConsumer (ms : List MotorRecord) (serial : String) (c : Nat) :
    Except String (List MotorRecord × List (Nat × Nat)) :=
  match ms.find? (fun d => serial == d.serial) with
  | some found =>
    if found.consumer.isSome then
      .error "Can't have two consumers of the same serial number"
    else
      .ok (updateFirst (fun d => serial == d.serial)
             (fun m => { m with consumer := some c }) ms,
           match found.device with
           | some dev => [(c, dev)]
           | none => [])
  | none => .ok (ms ++ [{ serial := serial, consumer := some c }], [])

/-- Calls performed by `onDeviceAttach`: a consumer's `onAttach(device)`,
or a process-wide listener call `l(serial, device, duplicate, consumer)`. -/
inductive RegEvent where
  | attach (consumer device : Nat)
  | listenerCall (l : Nat) (serial : String) (device : Nat) (dup : Bool)
      (consumer : Option Nat)
deriving DecidableEq

/-- `onDeviceAttach(device)` of `ConnectedMotorManager.ts`, after the
external serial-number probe has resolved (the probe itself is an external
USB descriptor read).  Returns the updated `motors` table and the calls
made, in order. -/
def onDeviceAttach (ms : List MotorRecord) (listeners : List Nat)
    (serial : String) (device : Nat) : List MotorRecord × List RegEvent :=
  let found := ms.find? (fun d => serial == d.serial)
  match found with
  | none =>
    (ms ++ [{ serial := serial, device := some device }],
     listeners.map fun l => .listenerCall l serial device false none)
  | some r =>
    match r.device with
    | none =>
      let ms' := updateFirst (fun d => serial == d.serial)
        (fun m => { m with device := some device }) ms
      let attachCalls : List RegEvent :=
        match r.consumer with
        | some c => [.attach c device]
        | none => []
      (ms', attachCalls ++
        listeners.map fun l => .listenerCall l serial device false r.consumer)
    | some _ =>
      -- duplicate: don't adopt the new device, no consumer notification
      (ms, listeners.map fun l => .listenerCall l serial device true none)

/-! ## MultiTurn normalization -/

/-- A `MultiTurn` value: whole electrical cycles plus sub-cycle
commutation.  The commutation is kept rational so that normalization of a
fractional input is expressible. -/
structure MultiTurnVal where
  turns : Int
  commutation : ℚ
deriving DecidableEq

/-- Modelled from the spec: `MultiTurn` normalization.  The repository
only declares the `MultiTurn` shape (with `@range [0, StepsPerRevolution)`
on `commutation`) in `ConnectedMotorManager.ts`; no normalization code is
under `src/`.  Per the spec, for any input `(turns, fractionalCommutation)`
— including negative fractional input — the normalized value has
`commutation` in `[0, StepsPerCycle)` and `turns` adjusted by exactly the
number of cycle-boundary crossings (incremented on overflow, decremented on
underflow), i.e. by `⌊fractionalCommutation / StepsPerCycle⌋`. -/
def normalizeMultiTurn (stepsPerCycle : Nat) (turns : Int)
    (fractionalCommutation : ℚ) : MultiTurnVal :=
  { turns := turns + ⌊fractionalCommutation / (stepsPerCycle : ℚ)⌋,
    commutation :=
      fractionalCommutation -
        (stepsPerCycle : ℚ) * ⌊fractionalCommutation / (stepsPerCycle : ℚ)⌋ }

/-- The seven `CommonData` fields of a decoded report, as a tuple. -/
def commonData {α : Type} (r : ReadDataObj α) :
    Option Nat × Option Int × Option Nat × Option Nat × Option Nat ×
      Option Nat × Option Nat :=
  (r.cpuTemp, r.current, r.VDD, r.vBatt, r.AS, r.BS, r.CS)

/-- The value carried in the 4-byte signed payload of a `Servo` command
after the sub-mode-specific processing (`kP`/`kI`/`kD`: `&= 0xffff`;
`pwm`/`command`: clipped to `[-255, 255]` then rounded; the undocumented
`amplitudeLimit` sub-mode is forced to 0 by the `default:` branch). -/
def servoPayloadValue (m : PwmMode) (q : ℚ) : Int :=
  match m with
  | .kP | .kI | .kD => jsAnd0xffff q
  | .pwm | .command => jsRound (clipRange (-255) 255 q)
  | .position | .velocity | .spare => jsRound q
  | .amplitudeLimit => 0

/-- Modelled from the spec: the documented outbound layout (wire-format
table of the spec: byte 0 the mode tag, then the mode's field bytes in
little-endian order — `ClearFault=5` no payload, `MLXDebug=0` 8-byte
payload region plus 1-byte CRC flag, `ThreePhase=1` three 2-byte values,
`Calibration=2` 2-byte angle + 1-byte amplitude, `Push=3` 2-byte signed,
`Servo=4` 1-byte sub-mode tag + 4-byte signed payload,
`SynchronousDrive=6` 1-byte signed amplitude + 4-byte signed velocity,
`Bootloader=0xfe` no payload).  Numeric values are the rounded (and, for
`Servo`, sub-mode-processed) field values; a 7-byte `MLXDebug` payload is
padded to the 8-byte region with zero. -/
def specExpectedBytes : Command → List Nat
  | .clearFault => [5]
  | .bootloader => [0xfe]
  | .mlxDebug data crc =>
    let d := data.getD []
    0 :: ((d ++ List.replicate (8 - d.length) 0) ++
      [if crc = some true ∨ d.length = 7 then 1 else 0])
  | .threePhase A B C =>
    1 :: (intLEBytes (jsRound (A.getD 0)) 2 ++ intLEBytes (jsRound (B.getD 0)) 2 ++
      intLEBytes (jsRound (C.getD 0)) 2)
  | .calibration angle amplitude =>
    2 :: (intLEBytes (jsRound (angle.getD 0)) 2 ++
      intLEBytes (jsRound (amplitude.getD 0)) 1)
  | .push command => 3 :: intLEBytes (jsRound (command.getD 0)) 2
  | .servo command pwmMode =>
    4 :: pwmByte (pwmMode.getD .pwm) ::
      intLEBytes (servoPayloadValue (pwmMode.getD .pwm) (command.getD 0)) 4
  | .synchronousDrive amplitude velocity =>
    6 :: (intLEBytes (jsRound (amplitude.getD 0)) 1 ++
      intLEBytes (jsRound (velocity.getD 0)) 4)

/-- The first structurally required field a command is missing, in the
order `write` checks them (`none` when all required fields are present;
`SynchronousDrive`, `ClearFault` and `Bootloader` have no `undefined`
guards in the source). -/
def firstMissingField : Command → Option String
  | .mlxDebug none _ => some "data"
  | .threePhase none _ _ => some "A"
  | .threePhase _ none _ => some "B"
  | .threePhase _ _ none => some "C"
  | .calibration none _ => some "angle"
  | .calibration _ none => some "amplitude"
  | .push none => some "command"
  | .servo none _ => some "command"
  | .servo _ none => some "pwmMode"
  | _ => none

/-- A sample Manual-state report (33 bytes): state tag 1, `mlxDataValid`
byte set, sensor-response state 5 (`TypeA`, beyond `Ready`), everything
else zero. -/
def sampleManualReport : List Nat :=
  [1, 0, 0, 0, 0, 0, 0, 0, 0, 1,
   0, 0, 0, 0, 0, 0, 0, 0, 5,
   0, 0, 0, 0, 0, 0, 0, 0, 0, 0, 0, 0, 0, 0]

/-- A sample Fault-state report (33 bytes): all zero. -/
def sampleFaultReport : List Nat := List.replicate 33 0

/-! ## Simp infrastructure for symbolic execution of the decoder -/

@[simp]
theorem exceptBindOk {ε σ β : Type} (a : σ) (f : σ → Except ε β) :
    (Except.ok a : Except ε σ) >>= f = f a := rfl

@[simp]
theorem exceptPureEq {ε σ : Type} (a : σ) :
    (pure a : Except ε σ) = Except.ok a := rfl

@[simp]
theorem uintLE_one (data : List Nat) (pos : Nat) :
    uintLE data pos 1 = byteAt data pos := by
  simp [uintLE]

theorem rdU_ok (data : List Nat) (pos len : Nat) (h : pos + len ≤ data.length)
    (h1 : 1 ≤ len) (h6 : len ≤ 6) :
    rdU data pos len = .ok (uintLE data pos len) := by
  simp [rdU, h, h1, h6]

theorem rdI_ok (data : List Nat) (pos len : Nat) (h : pos + len ≤ data.length)
    (h1 : 1 ≤ len) (h6 : len ≤ 6) :
    rdI data pos len = .ok (intLE data pos len) := by
  simp [rdI, h, h1, h6]

/-- Evaluation of the common-suffix reads on a full-length report. -/
theorem readCommons_ok {α : Type} (data : List Nat) (r : ReadDataObj α)
    (h33 : data.length = 33) :
    readCommons data r =
      .ok { r with cpuTemp := some (uintLE data 19 2),
                   current := some (intLE data 21 2),
                   VDD := some (uintLE data 23 2),
                   vBatt := some (uintLE data 25 2),
                   AS := some (uintLE data 27 2),
                   BS := some (uintLE data 29 2),
                   CS := some (uintLE data 31 2) } := by
  simp [readCommons, rdU, rdI, h33]

/-! ## Claim theorems: the decoder -/

/-- C4: for every buffer whose length differs from `reportLength`,
`parseHostDataIN` fails with the `DecodeError` carrying the offending
buffer, and the output object — including a caller-supplied reuse object —
is returned completely unmodified (the guard throws before any field is
written). -/
theorem C4_decode_wrong_length_fails_untouched {α : Type}
    (ext : List Nat → Except String α) (data : List Nat) (ret : ReadDataObj α)
    (h : data.length ≠ reportLength) :
    parseHostDataIN ext data ret = (ret, some (.invalidData data)) := by
  simp [parseHostDataIN, h]

theorem C4_decode_wrong_length_fails_untouched_witness :
    ([] : List Nat).length ≠ reportLength ∧
      parseHostDataIN (fun _ => Except.ok ()) [] (emptyReadData Unit) =
        (emptyReadData Unit, some (.invalidData [])) :=
  ⟨by decide,
   C4_decode_wrong_length_fails_untouched (fun _ => Except.ok ()) []
     (emptyReadData Unit) (by decide)⟩

/-- C3: for every buffer of length exactly `reportLength` whose state tag
(first byte) is 0, 1 or 2, `parseHostDataIN` never throws — for every
behaviour of the external sensor-response parser `ext`, including a parser
that always throws — and the returned object has exactly one of the
Fault/Manual/Normal variants populated together with all `CommonData`
fields. -/
theorem C3_decode_valid_report_total_and_populated {α : Type}
    (ext : List Nat → Except String α) (data : List Nat)
    (h : data.length = reportLength)
    (hs : byteAt data 0 = 0 ∨ byteAt data 0 = 1 ∨ byteAt data 0 = 2) :
    (parseHostDataIN ext data (emptyReadData α)).2 = none ∧
      exactlyOneVariant (parseHostDataIN ext data (emptyReadData α)).1 = true ∧
      commonPopulated (parseHostDataIN ext data (emptyReadData α)).1 = true := by
  have h33 : data.length = 33 := h
  rcases hs with h0 | h0 | h0
  · simp [parseHostDataIN, reportLength, parseBody, rdU, rdI, h33, h0,
      readCommons_ok, emptyReadData, exactlyOneVariant, faultPopulated,
      manualPopulated, normalPopulated, commonPopulated]
  · by_cases hv : byteAt data 9 = 0
    · simp [parseHostDataIN, reportLength, parseBody, rdU, rdI, h33, h0, hv,
        readCommons_ok, emptyReadData, exactlyOneVariant, faultPopulated,
        manualPopulated, normalPopulated, commonPopulated]
    · by_cases hr : 1 < byteAt data 18
      · simp [parseHostDataIN, reportLength, parseBody, rdU, rdI, h33, h0,
          hv, hr, readCommons_ok, emptyReadData, exactlyOneVariant,
          faultPopulated, manualPopulated, normalPopulated, commonPopulated]
      · simp [parseHostDataIN, reportLength, parseBody, rdU, rdI, h33, h0,
          hv, hr, readCommons_ok, emptyReadData, exactlyOneVariant,
          faultPopulated, manualPopulated, normalPopulated, commonPopulated]
  · simp [parseHostDataIN, reportLength, parseBody, rdU, rdI, h33, h0,
      readCommons_ok, emptyReadData, exactlyOneVariant, faultPopulated,
      manualPopulated, normalPopulated, commonPopulated]

theorem C3_decode_valid_report_total_and_populated_witness :
    sampleManualReport.length = reportLength ∧
      (byteAt sampleManualReport 0 = 0 ∨ byteAt sampleManualReport 0 = 1 ∨
        byteAt sampleManualReport 0 = 2) ∧
      ((parseHostDataIN (fun _ => Except.error "sensor frame rejected")
          sampleManualReport (emptyReadData Unit)).2 = none ∧
        exactlyOneVariant (parseHostDataIN (fun _ => Except.error "sensor frame rejected")
          sampleManualReport (emptyReadData Unit)).1 = true ∧
        commonPopulated (parseHostDataIN (fun _ => Except.error "sensor frame rejected")
          sampleManualReport (emptyReadData Unit)).1 = true) :=
  ⟨by decide, by decide,
   C3_decode_valid_report_total_and_populated
     (fun _ => Except.error "sensor frame rejected") sampleManualReport
     (by decide) (by decide)⟩

/-- The common suffix is decoded from the fixed offsets 19..32 whatever the
state tag and variant prefix contain. -/
theorem decode_commons_from_fixed_offsets {α : Type}
    (ext : List Nat → Except String α) (data : List Nat)
    (h33 : data.length = 33) :
    commonData (parseHostDataIN ext data (emptyReadData α)).1 =
      (some (uintLE data 19 2), some (intLE data 21 2), some (uintLE data 23 2),
       some (uintLE data 25 2), some (uintLE data 27 2), some (uintLE data 29 2),
       some (uintLE data 31 2)) := by
  by_cases e0 : byteAt data 0 = 0
  · simp [parseHostDataIN, reportLength, parseBody, rdU, rdI, h33, e0,
      readCommons_ok, emptyReadData, commonData]
  · by_cases e1 : byteAt data 0 = 1
    · by_cases hv : byteAt data 9 = 0
      · simp [parseHostDataIN, reportLength, parseBody, rdU, rdI, h33, e0, e1,
          hv, readCommons_ok, emptyReadData, commonData]
      · by_cases hr : 1 < byteAt data 18
        · simp [parseHostDataIN, reportLength, parseBody, rdU, rdI, h33, e0,
            e1, hv, hr, readCommons_ok, emptyReadData, commonData]
        · simp [parseHostDataIN, reportLength, parseBody, rdU, rdI, h33, e0,
            e1, hv, hr, readCommons_ok, emptyReadData, commonData]
    · by_cases e2 : byteAt data 0 = 2
      · simp [parseHostDataIN, reportLength, parseBody, rdU, rdI, h33, e0, e1,
          e2, readCommons_ok, emptyReadData, commonData]
      · simp [parseHostDataIN, reportLength, parseBody, rdU, rdI, h33, e0, e1,
          e2, readCommons_ok, emptyReadData, commonData]

/-- Unsigned LE reads only depend on the bytes they cover. -/
theorem uintLE_congr (d1 d2 : List Nat) (pos len : Nat)
    (h : ∀ i, pos ≤ i → i < pos + len → byteAt d1 i = byteAt d2 i) :
    uintLE d1 pos len = uintLE d2 pos len := by
  induction len generalizing pos with
  | zero => simp [uintLE]
  | succ n ih =>
    simp only [uintLE]
    rw [h pos le_rfl (by omega), ih (pos + 1) (fun i h1 h2 => h i (by omega) (by omega))]

/-- Signed LE reads only depend on the bytes they cover. -/
theorem intLE_congr (d1 d2 : List Nat) (pos len : Nat)
    (h : ∀ i, pos ≤ i → i < pos + len → byteAt d1 i = byteAt d2 i) :
    intLE d1 pos len = intLE d2 pos len := by
  simp only [intLE, uintLE_congr d1 d2 pos len h]

/-- C5: two full-length reports that agree on the trailing common region
(bytes 19..32) decode to identical `CommonData`, even when their state tags
and variant-prefix bytes differ. -/
theorem C5_commons_depend_only_on_trailing_bytes {α : Type}
    (ext : List Nat → Except String α) (d1 d2 : List Nat)
    (h1 : d1.length = reportLength) (h2 : d2.length = reportLength)
    (hagree : ∀ i, 19 ≤ i → i < 33 → byteAt d1 i = byteAt d2 i) :
    commonData (parseHostDataIN ext d1 (emptyReadData α)).1 =
      commonData (parseHostDataIN ext d2 (emptyReadData α)).1 := by
  rw [decode_commons_from_fixed_offsets ext d1 h1,
    decode_commons_from_fixed_offsets ext d2 h2]
  refine congrArg₂ _ ?_ (congrArg₂ _ ?_ (congrArg₂ _ ?_ (congrArg₂ _ ?_
    (congrArg₂ _ ?_ (congrArg₂ _ ?_ ?_))))) <;>
    refine congrArg _ ?_
  · exact uintLE_congr d1 d2 19 2 fun i ha hb => hagree i (by omega) (by omega)
  · exact intLE_congr d1 d2 21 2 fun i ha hb => hagree i (by omega) (by omega)
  · exact uintLE_congr d1 d2 23 2 fun i ha hb => hagree i (by omega) (by omega)
  · exact uintLE_congr d1 d2 25 2 fun i ha hb => hagree i (by omega) (by omega)
  · exact uintLE_congr d1 d2 27 2 fun i ha hb => hagree i (by omega) (by omega)
  · exact uintLE_congr d1 d2 29 2 fun i ha hb => hagree i (by omega) (by omega)
  · exact uintLE_congr d1 d2 31 2 fun i ha hb => hagree i (by omega) (by omega)

theorem C5_commons_depend_only_on_trailing_bytes_witness :
    sampleManualReport.length = reportLength ∧
      sampleFaultReport.length = reportLength ∧
      (∀ i, 19 ≤ i → i < 33 → byteAt sampleManualReport i = byteAt sampleFaultReport i) ∧
      commonData (parseHostDataIN (fun _ => Except.ok ()) sampleManualReport
          (emptyReadData Unit)).1 =
        commonData (parseHostDataIN (fun _ => Except.ok ()) sampleFaultReport
          (emptyReadData Unit)).1 :=
  ⟨by decide, by decide, by decide,
   C5_commons_depend_only_on_trailing_bytes (fun _ => Except.ok ())
     sampleManualReport sampleFaultReport (by decide) (by decide) (by decide)⟩

/-! ## Simp infrastructure for the encode path -/

theorem jsRound_intCast (n : Int) : jsRound (n : ℚ) = n := by
  rw [jsRound, add_comm, Int.floor_add_int]
  norm_num

@[simp]
theorem intLEBytes_length (v : Int) (len : Nat) : (intLEBytes v len).length = len := by
  induction len generalizing v with
  | zero => rfl
  | succ n ih => simp [intLEBytes, ih]

theorem setBytesLE_length (buf : List Nat) (pos : Nat) (v : Int) (len : Nat)
    (h : pos + len ≤ buf.length) :
    (setBytesLE buf pos v len).length = buf.length := by
  simp [setBytesLE]
  omega

/-- Successful buffer write: range and bounds checks pass. -/
theorem writeNumberToBuffer_ok (s : EncState) (q : ℚ) (len : Nat) (signed : Bool)
    (hrange : if signed then -(2 ^ (8 * len - 1) : Int) ≤ jsRound q ∧
        jsRound q < 2 ^ (8 * len - 1)
      else 0 ≤ jsRound q ∧ jsRound q < 2 ^ (8 * len))
    (hb : s.pos + len ≤ s.buffer.length) :
    writeNumberToBuffer s (some q) len signed =
      (⟨setBytesLE s.buffer s.pos (jsRound q) len, s.pos + len⟩, none) := by
  simp only [writeNumberToBuffer]
  rw [if_pos ⟨by split at hrange <;> simp_all, hb⟩]

/-- C10 (implicit): every numeric field flows through `Math.round` before
being written, so writing a value and writing its rounded integer are
indistinguishable — a non-integer in-range value is encoded as the rounded
integer (round-half-up), not rejected and not truncated toward zero. -/
theorem C10_write_rounds_numeric_fields (s : EncState) (q : ℚ) (len : Nat)
    (signed : Bool) :
    writeNumberToBuffer s (some q) len signed =
      writeNumberToBuffer s (some ((jsRound q : Int) : ℚ)) len signed := by
  simp [writeNumberToBuffer, jsRound_intCast]

/-- Evaluated form of a successful buffer write (the rounded value given
explicitly, for rewriting). -/
theorem writeNumberToBuffer_eval (buf : List Nat) (pos : Nat) (q : ℚ) (v : Int)
    (len : Nat) (signed : Bool) (hv : jsRound q = v)
    (hrange : if signed then -(2 ^ (8 * len - 1) : Int) ≤ v ∧ v < 2 ^ (8 * len - 1)
      else 0 ≤ v ∧ v < 2 ^ (8 * len))
    (hb : pos + len ≤ buf.length) :
    writeNumberToBuffer ⟨buf, pos⟩ (some q) len signed =
      (⟨setBytesLE buf pos v len, pos + len⟩, none) := by
  subst hv
  exact writeNumberToBuffer_ok ⟨buf, pos⟩ q len signed hrange hb

theorem jsRound_le_of_le {x : ℚ} {n : Int} (h : x ≤ (n : ℚ)) : jsRound x ≤ n := by
  have : jsRound x < n + 1 := Int.floor_lt.mpr (by push_cast; linarith)
  omega

theorem le_jsRound_of_le {n : Int} {x : ℚ} (h : (n : ℚ) ≤ x) : n ≤ jsRound x :=
  Int.le_floor.mpr (by linarith)

/-- Normal form of the `[-255, 255]` clip used by the Servo amplitude
sub-modes (the constructor arguments arrive swapped and are reordered). -/
theorem clipRange_255_eq (q : ℚ) :
    clipRange (-255) 255 q =
      if 255 < q then 255 else if q < -255 then -255 else q := by
  simp only [clipRange]
  rw [if_pos (by norm_num : (-255 : ℚ) < 255)]

theorem clipRange_255_le (q : ℚ) : clipRange (-255) 255 q ≤ 255 := by
  rw [clipRange_255_eq]
  split_ifs <;> linarith

theorem neg_255_le_clipRange (q : ℚ) : -255 ≤ clipRange (-255) 255 q := by
  rw [clipRange_255_eq]
  split_ifs <;> linarith

theorem clipRange_255_high {q : ℚ} (h : 255 < q) : clipRange (-255) 255 q = 255 := by
  rw [clipRange_255_eq, if_pos h]

theorem clipRange_255_low {q : ℚ} (h : q < -255) : clipRange (-255) 255 q = -255 := by
  rw [clipRange_255_eq, if_neg (by linarith), if_pos h]

theorem clipRange_255_id {q : ℚ} (h1 : -255 ≤ q) (h2 : q ≤ 255) :
    clipRange (-255) 255 q = q := by
  rw [clipRange_255_eq, if_neg (by linarith), if_neg (by linarith)]

/-- Extract exactly the bytes a write placed in the buffer. -/
theorem setBytesLE_extract (buf : List Nat) (pos : Nat) (v : Int) (len : Nat)
    (h : pos + len ≤ buf.length) :
    ((setBytesLE buf pos v len).drop pos).take len = intLEBytes v len := by
  simp only [setBytesLE]
  have hl : (List.take pos buf).length = pos := by simp; omega
  rw [List.append_assoc, List.drop_append_eq_append_drop,
    List.drop_eq_nil_of_le (le_of_eq hl), hl, Nat.sub_self, List.drop_zero,
    List.nil_append, List.take_left' (intLEBytes_length v len)]

/-- C7: for a Servo command in an amplitude-like sub-mode (`pwm` or
`command`, both `PWMMode` 1 = setAmplitude), the amplitude is clamped into
`[-255, 255]` and encoded (the write succeeds and is submitted — never
rejected): values above 255 encode as 255, values below −255 as −255, and
in-range values are encoded unchanged. -/
theorem C7_servo_amplitude_clipped (s : Session) (q : ℚ) (m : PwmMode)
    (hm : m = PwmMode.pwm ∨ m = PwmMode.command)
    (hdev : s.device = true) (hflight : s.inFlight = false)
    (hlen : s.writeBuffer.length = 33) :
    ∃ s', write s (.servo (some q) (some m)) = (.submitted, s') ∧
      (s'.writeBuffer.drop 3).take 4 =
        intLEBytes (jsRound (clipRange (-255) 255 q)) 4 ∧
      (255 < q → jsRound (clipRange (-255) 255 q) = 255) ∧
      (q < -255 → jsRound (clipRange (-255) 255 q) = -255) ∧
      (-255 ≤ q → q ≤ 255 → clipRange (-255) 255 q = q) := by
  have hcu : jsRound (clipRange (-255) 255 q) ≤ 255 :=
    jsRound_le_of_le (by exact_mod_cast clipRange_255_le q)
  have hcl : -255 ≤ jsRound (clipRange (-255) 255 q) :=
    le_jsRound_of_le (by exact_mod_cast neg_255_le_clipRange q)
  have hlen1 : (setBytesLE s.writeBuffer 1 4 1).length = 33 := by
    rw [setBytesLE_length s.writeBuffer 1 4 1 (by rw [hlen]; norm_num), hlen]
  have hlen2 : (setBytesLE (setBytesLE s.writeBuffer 1 4 1) 2 1 1).length = 33 := by
    rw [setBytesLE_length _ 2 1 1 (by rw [hlen1]; norm_num), hlen1]
  have hr : -(2 ^ (8 * 4 - 1) : Int) ≤ jsRound (clipRange (-255) 255 q) ∧
      jsRound (clipRange (-255) 255 q) < 2 ^ (8 * 4 - 1) := by
    norm_num
    constructor <;> linarith
  refine ⟨{ s with
      writeBuffer := setBytesLE (setBytesLE (setBytesLE s.writeBuffer 1 4 1) 2 1 1)
        3 (jsRound (clipRange (-255) 255 q)) 4,
      inFlight := true }, ?_, ?_, ?_, ?_, ?_⟩
  · rcases hm with rfl | rfl <;>
    · simp only [write, hdev, hflight, Bool.not_true, Bool.false_eq_true,
        if_false, writeCommandBytes, modeByte, pwmByte]
      rw [writeNumberToBuffer_eval s.writeBuffer 1 _ 4 1 false
        (by norm_num [jsRound]) (by norm_num) (by rw [hlen]; norm_num)]
      simp only [andThen]
      rw [writeNumberToBuffer_eval _ 2 _ 1 1 false
        (by norm_num [jsRound]) (by norm_num) (by rw [hlen1]; norm_num)]
      simp only [andThen]
      rw [writeNumberToBuffer_eval _ 3 _ (jsRound (clipRange (-255) 255 q)) 4 true
        rfl hr (by rw [hlen2]; norm_num)]
      simp
  · exact setBytesLE_extract _ 3 _ 4 (by rw [hlen2]; norm_num)
  · intro h
    rw [clipRange_255_high h]
    norm_num [jsRound]
  · intro h
    rw [clipRange_255_low h]
    norm_num [jsRound]
  · exact fun h1 h2 => clipRange_255_id h1 h2

theorem C7_servo_amplitude_clipped_witness :
    (PwmMode.pwm = PwmMode.pwm ∨ PwmMode.pwm = PwmMode.command) ∧
      (Session.mk true (List.replicate 33 0) false).device = true ∧
      (Session.mk true (List.replicate 33 0) false).inFlight = false ∧
      (Session.mk true (List.replicate 33 0) false).writeBuffer.length = 33 ∧
      (∃ s', write ⟨true, List.replicate 33 0, false⟩
          (.servo (some 300) (some PwmMode.pwm)) = (.submitted, s') ∧
        (s'.writeBuffer.drop 3).take 4 =
          intLEBytes (jsRound (clipRange (-255) 255 300)) 4 ∧
        (255 < (300 : ℚ) → jsRound (clipRange (-255) 255 300) = 255) ∧
        ((300 : ℚ) < -255 → jsRound (clipRange (-255) 255 300) = -255) ∧
        (-255 ≤ (300 : ℚ) → (300 : ℚ) ≤ 255 → clipRange (-255) 255 300 = 300)) :=
  ⟨Or.inl rfl, rfl, rfl, by decide,
   C7_servo_amplitude_clipped ⟨true, List.replicate 33 0, false⟩ 300 PwmMode.pwm
     (Or.inl rfl) rfl rfl (by decide)⟩

/-- C2 counterexample: the claim says a `write` issued while a previous
write's completion handle is unresolved is rejected *fatally* in every
session state.  On a session whose device has detached while the previous
write was still pending, `write` instead returns `false` (the `!device`
guard runs first) — a rejection, but not the fatal
`'Previous write not complete'` error. -/
theorem C2_counterexample :
    (Session.mk false (List.replicate 33 0) true).inFlight = true ∧
      (write ⟨false, List.replicate 33 0, true⟩ Command.clearFault).1 =
        .notAttached ∧
      (write ⟨false, List.replicate 33 0, true⟩ Command.clearFault).1 ≠
        .previousWriteNotComplete := by
  refine ⟨rfl, rfl, by decide⟩

/-- C2 (amended): whenever a previous write's completion handle is still
unresolved, a `write` call never submits a transfer and leaves the session
unchanged; on a session with a device attached the call fails fatally with
`'Previous write not complete'` (on a detached session it returns `false`
instead). -/
theorem C2_no_second_transfer_while_pending (s : Session) (c : Command)
    (h : s.inFlight = true) :
    (write s c).1 ≠ .submitted ∧ (write s c).2 = s ∧
      (s.device = true → (write s c).1 = .previousWriteNotComplete) := by
  by_cases hd : s.device = true
  · simp [write, hd, h]
  · simp [write, hd, h]

theorem C2_no_second_transfer_while_pending_witness :
    (Session.mk true (List.replicate 33 0) true).inFlight = true ∧
      ((write ⟨true, List.replicate 33 0, true⟩ Command.clearFault).1 ≠
          .submitted ∧
        (write ⟨true, List.replicate 33 0, true⟩ Command.clearFault).2 =
          ⟨true, List.replicate 33 0, true⟩ ∧
        ((Session.mk true (List.replicate 33 0) true).device = true →
          (write ⟨true, List.replicate 33 0, true⟩ Command.clearFault).1 =
            .previousWriteNotComplete)) :=
  ⟨rfl, C2_no_second_transfer_while_pending ⟨true, List.replicate 33 0, true⟩
    Command.clearFault rfl⟩

/-- Updating the first record matched by `find?` is visible to a
subsequent `find?`, provided the update preserves the predicate. -/
theorem find?_updateFirst (ms : List MotorRecord) (p : MotorRecord → Bool)
    (f : MotorRecord → MotorRecord) (r : MotorRecord)
    (h : ms.find? p = some r) (hf : p (f r) = true) :
    (updateFirst p f ms).find? p = some (f r) := by
  induction ms with
  | nil => simp at h
  | cons m rest ih =>
    by_cases hm : p m = true
    · rw [List.find?_cons_of_pos _ hm, Option.some_inj] at h
      subst h
      simp [updateFirst, hm, List.find?_cons_of_pos _ hf]
    · rw [List.find?_cons_of_neg _ hm] at h
      simp only [updateFirst, hm, Bool.false_eq_true, if_false]
      rw [List.find?_cons_of_neg _ hm]
      exact ih h

/-- C9: whichever happens first, the consumer ends up attached.
Part 1: if the registry already holds a record for the serial with a live
device and no consumer, registering a consumer immediately invokes its
`onAttach` with the already-known device and stores the consumer.
Part 2: if the consumer was registered first (record with consumer, no
device), a later physical attach stores the device and invokes the
consumer's `onAttach` with it. -/
theorem C9_consumer_attached_in_both_orders :
    (∀ (ms : List MotorRecord) (serial : String) (c d : Nat) (r : MotorRecord),
      ms.find? (fun m => serial == m.serial) = some r →
      r.device = some d → r.consumer = none →
      registerConsumer ms serial c =
        .ok (updateFirst (fun m => serial == m.serial)
              (fun m => { m with consumer := some c }) ms, [(c, d)]) ∧
      (updateFirst (fun m => serial == m.serial)
          (fun m => { m with consumer := some c }) ms).find?
          (fun m => serial == m.serial) = some { r with consumer := some c }) ∧
    (∀ (ms : List MotorRecord) (listeners : List Nat) (serial : String)
        (c d : Nat) (r : MotorRecord),
      ms.find? (fun m => serial == m.serial) = some r →
      r.device = none → r.consumer = some c →
      (onDeviceAttach ms listeners serial d).2.head? = some (.attach c d) ∧
      (onDeviceAttach ms listeners serial d).1.find?
          (fun m => serial == m.serial) = some { r with device := some d }) := by
  constructor
  · intro ms serial c d r h hdev hcons
    have hp := List.find?_some h
    constructor
    · simp [registerConsumer, h, hcons, hdev]
    · exact find?_updateFirst ms (fun m => serial == m.serial)
        (fun m => { m with consumer := some c }) r h (by simpa using hp)
  · intro ms listeners serial c d r h hdev hcons
    have hp := List.find?_some h
    constructor
    · simp [onDeviceAttach, h, hdev, hcons]
    · simp only [onDeviceAttach, h, hdev, hcons]
      have hfind := find?_updateFirst ms (fun m => serial == m.serial)
        (fun m => { m with device := some d }) r h (by simpa using hp)
      simpa [hcons] using hfind

theorem C9_consumer_attached_in_both_orders_witness :
    (([⟨"X", some 7, none⟩] : List MotorRecord).find?
        (fun m => "X" == m.serial) = some ⟨"X", some 7, none⟩ ∧
      registerConsumer [⟨"X", some 7, none⟩] "X" 4 =
        .ok (updateFirst (fun m => "X" == m.serial)
              (fun m => { m with consumer := some 4 }) [⟨"X", some 7, none⟩],
             [(4, 7)]) ∧
      (updateFirst (fun m => "X" == m.serial)
          (fun m => { m with consumer := some 4 }) [⟨"X", some 7, none⟩]).find?
          (fun m => "X" == m.serial) = some ⟨"X", some 7, some 4⟩) ∧
    (([⟨"X", none, some 4⟩] : List MotorRecord).find?
        (fun m => "X" == m.serial) = some ⟨"X", none, some 4⟩ ∧
      (onDeviceAttach [⟨"X", none, some 4⟩] [] "X" 7).2.head? =
        some (.attach 4 7) ∧
      (onDeviceAttach [⟨"X", none, some 4⟩] [] "X" 7).1.find?
          (fun m => "X" == m.serial) = some ⟨"X", some 7, some 4⟩) := by
  constructor
  · refine ⟨by decide, ?_⟩
    exact C9_consumer_attached_in_both_orders.1 [⟨"X", some 7, none⟩] "X" 4 7
      ⟨"X", some 7, none⟩ (by decide) rfl rfl
  · refine ⟨by decide, ?_⟩
    exact C9_consumer_attached_in_both_orders.2 [⟨"X", none, some 4⟩] [] "X" 4 7
      ⟨"X", none, some 4⟩ (by decide) rfl rfl

/-- C8 (spec-modelled): for any input `(turns, fractionalCommutation)` —
including negative fractional input — the normalized `MultiTurn` value has
`commutation ∈ [0, StepsPerCycle)`, `turns` adjusted by exactly the number
of cycle-boundary crossings `⌊fractionalCommutation / StepsPerCycle⌋`
(incremented on overflow, decremented on underflow), and the absolute
position `turns * StepsPerCycle + commutation` is preserved. -/
theorem C8_multiturn_normalization (spc : Nat) (h : 0 < spc) (turns : Int)
    (fc : ℚ) :
    0 ≤ (normalizeMultiTurn spc turns fc).commutation ∧
      (normalizeMultiTurn spc turns fc).commutation < spc ∧
      (normalizeMultiTurn spc turns fc).turns = turns + ⌊fc / (spc : ℚ)⌋ ∧
      ((normalizeMultiTurn spc turns fc).turns : ℚ) * spc +
          (normalizeMultiTurn spc turns fc).commutation =
        (turns : ℚ) * spc + fc := by
  have hs : (0 : ℚ) < spc := by exact_mod_cast h
  have hkey : fc - (spc : ℚ) * ⌊fc / (spc : ℚ)⌋ = spc * Int.fract (fc / spc) := by
    rw [Int.fract]
    field_simp
  refine ⟨?_, ?_, rfl, ?_⟩
  · rw [normalizeMultiTurn, hkey]
    exact mul_nonneg hs.le (Int.fract_nonneg _)
  · rw [normalizeMultiTurn, hkey]
    calc (spc : ℚ) * Int.fract (fc / spc) < spc * 1 :=
          (mul_lt_mul_left hs).mpr (Int.fract_lt_one _)
      _ = spc := mul_one _
  · rw [normalizeMultiTurn]
    push_cast
    ring

theorem C8_multiturn_normalization_witness :
    0 < 768 ∧
      (0 ≤ (normalizeMultiTurn 768 0 (-1 / 2)).commutation ∧
        (normalizeMultiTurn 768 0 (-1 / 2)).commutation < 768 ∧
        (normalizeMultiTurn 768 0 (-1 / 2)).turns = 0 + ⌊(-1 / 2) / (768 : ℚ)⌋ ∧
        ((normalizeMultiTurn 768 0 (-1 / 2)).turns : ℚ) * 768 +
            (normalizeMultiTurn 768 0 (-1 / 2)).commutation =
          ((0 : Int) : ℚ) * 768 + (-1 / 2)) :=
  ⟨by norm_num, C8_multiturn_normalization 768 (by norm_num) 0 (-1 / 2)⟩

/-- Sanity evaluation of the documented layout at the spec's scenario:
`{mode: ThreePhase, A: 2000, B: 2000, C: 2000}` encodes as
`[1, 208, 7, 208, 7, 208, 7]` — the mode tag 1 followed by the three
little-endian 16-bit values (2000 = 208 + 7·256). -/
theorem threePhase_2000_layout :
    specExpectedBytes (.threePhase (some 2000) (some 2000) (some 2000)) =
      [1, 208, 7, 208, 7, 208, 7] := by
  norm_num [specExpectedBytes, intLEBytes, jsRound, Int.fdiv]
  decide

end SmoothControl
